import Mathlib

/-!
Verification of the Terraform AWS provider resources for Batch compute
environments, ELBv2 load balancers and SSM documents.

The Go source is shallowly embedded: pure helper functions become Lean
functions; each CRUD handler becomes a pure function from its configuration
and from the outcomes of the external AWS API calls it performs (each
outcome is an `Except AwsError` value supplied as input, since the remote
service is outside the program) to the handler's result, the resource id it
stores, and the list of cloud API calls it issued.  Request-structure
marshaling of fields that do not affect control flow is elided.
-/

/-- An AWS SDK error: a machine-readable error code plus a message
(`awserr.Error` exposes `Code()` and `Message()`). -/
structure AwsError where
  code : String
  message : String
deriving DecidableEq

/-- Go `fmt.Errorf("<ctx>: %s", err)`: wraps an error with context; the
machine-readable code of the wrapped error is not preserved. -/
def wrapErr (ctx : String) (e : AwsError) : AwsError :=
  ⟨"", ctx ++ ": " ++ e.message⟩

/-- Go `fmt.Errorf("<ctx>: %w", err)`: wraps an error with context, keeping the
wrapped error (and hence its code) reachable via `errors.As`. -/
def wrapErrW (ctx : String) (e : AwsError) : AwsError :=
  ⟨e.code, ctx ++ ": " ++ e.message⟩

/-- A dynamically typed Go value (`interface{}`) as stored in a Terraform
`map[string]interface{}`; only string-typed entries matter here. -/
inductive GoVal where
  | str (s : String)
  | other
deriving DecidableEq

/-- A Terraform `map[string]interface{}`, e.g. the `permissions` map of an
SSM document.  Go maps have unique keys; lookup is by key. -/
abbrev PermMap := List (String × GoVal)

/-- The Go type assertion `v.(string)` on a map lookup: yields the string
when the key is present with a string value, otherwise fails. -/
def goStringAssert : Option GoVal → Option String
  | some (GoVal.str s) => some s
  | _ => none

/-- Constant `ssm.DocumentPermissionTypeShare`. -/
def ssmDocumentPermissionTypeShare : String := "Share"

/-- Function `validateSSMDocumentPermissions` from resource_aws_ssm_document.go:
validates that the `permissions` map has a `type` entry that is the string
"Share" and an `account_ids` entry that is a string, appending one error
per violated condition. -/
def validateSSMDocumentPermissions (v : PermMap) : List String :=
  let typeAssert := goStringAssert (v.lookup "type")
  let accountIdsAssert := goStringAssert (v.lookup "account_ids")
  let typeErrors : List String :=
    match typeAssert with
    | some t =>
      if t ≠ ssmDocumentPermissionTypeShare then
        ["permissions: only Share type supported"]
      else []
    | none => ["permissions: type must be defined"]
  let accountIdsErrors : List String :=
    if accountIdsAssert.isSome then [] else ["permissions: account_ids must be defined"]
  typeErrors ++ accountIdsErrors

/-- Constant `SSM_DOCUMENT_PERMISSIONS_BATCH_LIMIT` from resource_aws_ssm_document.go. -/
def SSM_DOCUMENT_PERMISSIONS_BATCH_LIMIT : Nat := 20

/-- The batching loop of `modifyDocumentPermissions`: account ids are
accumulated into the current batch; when the batch holds `limit` ids it is
flushed to the list of batches and a fresh batch starts with the current id;
after the loop the final (possibly empty) batch is appended. -/
def accountIdsBatchLoop (limit : Nat) :
    List (List String) → List String → List String → List (List String)
  | batches, batch, [] => batches ++ [batch]
  | batches, batch, accountId :: rest =>
    if batch.length = limit then
      accountIdsBatchLoop limit (batches ++ [batch]) [accountId] rest
    else
      accountIdsBatchLoop limit batches (batch ++ [accountId]) rest

/-- The batches `modifyDocumentPermissions` forms from one input list
(the same loop is instantiated once for the ids to add and once for the ids
to remove). -/
def accountIdsBatches (accountIds : List String) : List (List String) :=
  accountIdsBatchLoop SSM_DOCUMENT_PERMISSIONS_BATCH_LIMIT [] [] accountIds

/-- One `ssm.ModifyDocumentPermissionInput` request; a nil account-id slice
is rendered as the empty list. -/
structure ModifyDocumentPermissionInput where
  name : String
  permissionType : String
  accountIdsToAdd : List String
  accountIdsToRemove : List String
deriving DecidableEq

/-- Function `modifyDocumentPermissions` from resource_aws_ssm_document.go, viewed as
the sequence of `ModifyDocumentPermission` calls it issues (one per batch,
adds first, then removes; a `none` argument is Go's nil slice, for which the
corresponding loop is skipped entirely).  Call outcomes are not modelled:
this is the call sequence of the run in which no call fails. -/
def modifyDocumentPermissions (name : String) (accountIdsToAdd : Option (List String))
    (accountIdstoRemove : Option (List String)) : List ModifyDocumentPermissionInput :=
  (match accountIdsToAdd with
   | some adds =>
     (accountIdsBatches adds).map fun b => ⟨name, "Share", b, []⟩
   | none => []) ++
  (match accountIdstoRemove with
   | some removes =>
     (accountIdsBatches removes).map fun b => ⟨name, "Share", [], b⟩
   | none => [])

/-- Go `strings.Split(s, ",")` on a string modelled as a list of characters:
splitting on a single-character separator.  `strings.Split("", ",")` is
`[""]`, matching the base case. -/
def goSplitComma : List Char → List (List Char)
  | [] => [[]]
  | c :: cs =>
    match goSplitComma cs with
    | [] => [[]]
    | r :: rs => if c = ',' then [] :: r :: rs else (c :: r) :: rs

/-- Go `strings.Join(l, ",")` on strings modelled as lists of characters. -/
def goJoinComma : List (List Char) → List Char
  | [] => []
  | [s] => s
  | s :: s2 :: rest => s ++ ',' :: goJoinComma (s2 :: rest)

/-- The account-ids encoding of `getDocumentPermissions`: the ids string is
empty for no accounts, the single account id verbatim for one account, and
`strings.Join(account_ids, ",")` for several. -/
def getDocumentPermissionsIds (account_ids : List (List Char)) : List Char :=
  match account_ids with
  | [] => []
  | [s] => s
  | s :: s2 :: rest => goJoinComma (s :: s2 :: rest)

/-- The account-ids decoding shared by `setDocumentPermissions` and
`deleteDocumentPermissions`: the empty string decodes to no account ids,
any other string is `strings.Split(v, ",")`. -/
def parseAccountIdsString (s : List Char) : List (List Char) :=
  if s = [] then [] else goSplitComma s

/-- The repository helper `sliceContainsString(slice, s)` reports (with the
index, which the diff code discards) whether `s` occurs in `slice`. -/
def sliceContainsString (slice : List String) (s : String) : Bool :=
  slice.contains s

/-- The `accountIdsToRemove` loop of `setDocumentPermissions`: the old
account ids that are not contained in the new ones. -/
def accountIdsToRemove (oldIds newIds : List String) : List String :=
  oldIds.filter fun oldId => !(sliceContainsString newIds oldId)

/-- The `accountIdsToAdd` loop of `setDocumentPermissions`: the new account
ids that are not contained in the old ones. -/
def accountIdsToAdd (oldIds newIds : List String) : List String :=
  newIds.filter fun newId => !(sliceContainsString oldIds newId)

/-- Effect of the computed diff on a remote set of shared account ids
(represented as a duplicate-free list): `ModifyDocumentPermission` first
removes every id in `AccountIdsToRemove`, then adds every id in
`AccountIdsToAdd`. -/
def applyPermissionDiff (current toAdd toRemove : List String) : List String :=
  (current.filter fun s => !(sliceContainsString toRemove s)) ++ toAdd

/-- The cloud API operations (and waiter/poll sessions built on them) a
handler can issue, recorded in order. -/
inductive ApiCall where
  | createComputeEnvironment
  | describeComputeEnvironments
  | computeEnvironmentWaitForState
  | createDocument
  | modifyDocumentPermission
  | documentActiveWaiter
  | describeDocument
  | createLoadBalancer
  | loadBalancerActiveWaiter
deriving DecidableEq

/-- Outcome of a Create handler: the returned error or success, the resource
id stored by `d.SetId` (still `none` when never set), and the cloud
operations issued, in order. -/
structure CreateOut where
  result : Except AwsError Unit
  resourceId : Option String
  calls : List ApiCall

/-- Constant `batch.CETypeManaged`. -/
def batchCETypeManaged : String := "MANAGED"

/-- Constant `batch.CEStatusDeleted`. -/
def batchCEStatusDeleted : String := "DELETED"

/-- The configuration fields of `aws_batch_compute_environment` that drive
the Create handler's control flow; `computeResources` is the raw
`compute_resources` block list from the schema. -/
structure BatchCreateConfig where
  computeEnvironmentName : String
  serviceRole : String
  ceType : String
  computeResources : List PermMap

/-- Outcomes of the external operations `resourceAwsBatchComputeEnvironmentCreate`
can perform, in program order. -/
structure BatchCreateApi where
  createComputeEnvironment : Except AwsError Unit
  waitForState : Except AwsError Unit
  read : Except AwsError Unit

/-- Handler `resourceAwsBatchComputeEnvironmentCreate`: for a managed environment an
empty `compute_resources` list fails before any API call; then
`CreateComputeEnvironment` is issued (its error returned verbatim),
`d.SetId(computeEnvironmentName)` runs only after it succeeds, and the
handler waits for the CREATING to VALID poll before the final Read. -/
def resourceAwsBatchComputeEnvironmentCreate (cfg : BatchCreateConfig)
    (api : BatchCreateApi) : CreateOut :=
  if cfg.ceType = batchCETypeManaged ∧ cfg.computeResources.length = 0 then
    { result := .error ⟨"", "One compute environment is expected, but no compute environments are set"⟩
      resourceId := none
      calls := [] }
  else
    match api.createComputeEnvironment with
    | .error e =>
      { result := .error e, resourceId := none, calls := [ApiCall.createComputeEnvironment] }
    | .ok _ =>
      match api.waitForState with
      | .error e =>
        { result := .error e
          resourceId := some cfg.computeEnvironmentName
          calls := [ApiCall.createComputeEnvironment, ApiCall.computeEnvironmentWaitForState] }
      | .ok _ =>
        { result := api.read
          resourceId := some cfg.computeEnvironmentName
          calls := [ApiCall.createComputeEnvironment, ApiCall.computeEnvironmentWaitForState,
                    ApiCall.describeComputeEnvironments] }

/-- Outcomes of the external operations `resourceAwsSsmDocumentCreate` can
perform, in program order: `CreateDocument` yields
`resp.DocumentDescription.Name` on success; `setDocumentPermissions`,
the `DocumentActive` waiter and the final Read are abstracted by their
overall outcomes. -/
structure SsmCreateApi where
  createDocument : Except AwsError String
  setDocumentPermissions : Except AwsError Unit
  documentActive : Except AwsError Unit
  read : Except AwsError Unit

/-- The body of `resourceAwsSsmDocumentCreate` after permissions validation:
issue `CreateDocument` (its error returned wrapped with
"Error creating SSM document"), run `d.SetId(resp.DocumentDescription.Name)`
only after it succeeds, then `setDocumentPermissions` when a permissions map
is configured (recorded as its `ModifyDocumentPermission` traffic), the
Active waiter, and the final Read. -/
def ssmDocumentCreateCallApi (permissionsSet : Bool) (api : SsmCreateApi) : CreateOut :=
  match api.createDocument with
  | .error e =>
    { result := .error (wrapErr "Error creating SSM document" e)
      resourceId := none
      calls := [ApiCall.createDocument] }
  | .ok docName =>
    let setPermsStep : Except AwsError Unit × List ApiCall :=
      if permissionsSet then (api.setDocumentPermissions, [ApiCall.modifyDocumentPermission])
      else (.ok (), [])
    match setPermsStep.1 with
    | .error e =>
      { result := .error e
        resourceId := some docName
        calls := ApiCall.createDocument :: setPermsStep.2 }
    | .ok _ =>
      match api.documentActive with
      | .error e =>
        { result := .error (wrapErrW "error waiting for SSM Document to be Active" e)
          resourceId := some docName
          calls := ApiCall.createDocument :: setPermsStep.2 ++ [ApiCall.documentActiveWaiter] }
      | .ok _ =>
        { result := api.read
          resourceId := some docName
          calls := ApiCall.createDocument :: setPermsStep.2 ++
            [ApiCall.documentActiveWaiter, ApiCall.describeDocument] }

/-- Handler `resourceAwsSsmDocumentCreate`: if a `permissions` map is set
(`d.GetOk` yields it only when non-empty) and fails
`validateSSMDocumentPermissions`, the handler fails before any API call
(the `%v` rendering of the error list in the message is elided); otherwise
it proceeds to `CreateDocument` and the rest of the handler. -/
def resourceAwsSsmDocumentCreate (permissions : Option PermMap)
    (api : SsmCreateApi) : CreateOut :=
  match permissions with
  | some p =>
    if 0 < (validateSSMDocumentPermissions p).length then
      { result := .error ⟨"", "Error validating Permissions"⟩, resourceId := none, calls := [] }
    else
      ssmDocumentCreateCallApi true api
  | none => ssmDocumentCreateCallApi false api

/-- Outcomes of the external operations `resourceAwsLbCreate` can perform,
in program order: `CreateLoadBalancer` yields `resp.LoadBalancers` as the
list of load-balancer ARNs; the `LoadBalancerActive` waiter and the tail
call to `resourceAwsLbUpdate` are abstracted by their overall outcomes. -/
structure LbCreateApi where
  createLoadBalancer : Except AwsError (List String)
  loadBalancerActive : Except AwsError Unit
  update : Except AwsError Unit

/-- Handler `resourceAwsLbCreate`: issue `CreateLoadBalancer` (its error returned
wrapped), fail unless the response holds exactly one load balancer, then
`d.SetId(lb.LoadBalancerArn)` with the returned ARN, wait for the balancer
to be active and tail-call the Update handler. -/
def resourceAwsLbCreate (name lbType : String) (api : LbCreateApi) : CreateOut :=
  match api.createLoadBalancer with
  | .error e =>
    { result := .error (wrapErrW ("error creating " ++ lbType ++ " Load Balancer") e)
      resourceId := none
      calls := [ApiCall.createLoadBalancer] }
  | .ok lbs =>
    if lbs.length ≠ 1 then
      { result := .error ⟨"", "no load balancers returned following creation of " ++ name⟩
        resourceId := none
        calls := [ApiCall.createLoadBalancer] }
    else
      let arn := lbs.headD ""
      match api.loadBalancerActive with
      | .error e =>
        { result := .error (wrapErrW ("error waiting for Load Balancer (" ++ name ++ ") to be active") e)
          resourceId := some arn
          calls := [ApiCall.createLoadBalancer, ApiCall.loadBalancerActiveWaiter] }
      | .ok _ =>
        { result := api.update
          resourceId := some arn
          calls := [ApiCall.createLoadBalancer, ApiCall.loadBalancerActiveWaiter] }

/-- One compute environment of a `DescribeComputeEnvironments` response
(the fields the Read handler copies into state). -/
structure BatchComputeEnvironment where
  computeEnvironmentName : String
  status : String
  serviceRole : String
  ceState : String
deriving DecidableEq

/-- Outcome of `resourceAwsBatchComputeEnvironmentRead`: an error, removal
of the resource from state (`d.SetId("")` with a nil return), or success
hydrating state from the selected compute environment. -/
inductive BatchReadOutcome where
  | err (e : AwsError)
  | removedFromState
  | ok (ce : BatchComputeEnvironment)
deriving DecidableEq

/-- Handler `resourceAwsBatchComputeEnvironmentRead` as a function of the
`DescribeComputeEnvironments` outcome: a describe error is returned
wrapped; an empty result removes the resource from state; otherwise state
is hydrated from `result.ComputeEnvironments[0]`. -/
def resourceAwsBatchComputeEnvironmentRead
    (describe : Except AwsError (List BatchComputeEnvironment)) : BatchReadOutcome :=
  match describe with
  | .error e => .err (wrapErrW "error reading Batch Compute Environment" e)
  | .ok ces =>
    match ces with
    | [] => .removedFromState
    | ce :: _ => .ok ce

/-- The `(interface{}, string, error)` triple returned by a
`resource.StateRefreshFunc`; the payload is the describe output when one is
returned. -/
structure RefreshResult where
  payload : Option (List BatchComputeEnvironment)
  status : String
  refreshError : Option AwsError
deriving DecidableEq

/-- Function `resourceAwsBatchComputeEnvironmentStatusRefreshFunc` as a function of
the `DescribeComputeEnvironments` outcome: a describe error yields status
"failed" with that error; an empty result yields status "failed" with the
one-compute-environment invariant error; otherwise the status of
`result.ComputeEnvironments[0]` with the full response as payload. -/
def resourceAwsBatchComputeEnvironmentStatusRefreshFunc
    (describe : Except AwsError (List BatchComputeEnvironment)) : RefreshResult :=
  match describe with
  | .error e => ⟨none, "failed", some e⟩
  | .ok ces =>
    match ces with
    | [] =>
      ⟨none, "failed",
        some ⟨"", "One compute environment is expected, but AWS return no compute environment"⟩⟩
    | ce :: _ => ⟨some ces, ce.status, none⟩

/-- Function `resourceAwsBatchComputeEnvironmentDeleteRefreshFunc`: like the status
refresh, but an empty describe result is the DELETED terminal status with
the (empty) response as payload and no error. -/
def resourceAwsBatchComputeEnvironmentDeleteRefreshFunc
    (describe : Except AwsError (List BatchComputeEnvironment)) : RefreshResult :=
  match describe with
  | .error e => ⟨none, "failed", some e⟩
  | .ok ces =>
    match ces with
    | [] => ⟨some [], batchCEStatusDeleted, none⟩
    | ce :: _ => ⟨some ces, ce.status, none⟩

/-- Constant `ssm.ErrCodeInvalidDocument`. -/
def ssmErrCodeInvalidDocument : String := "InvalidDocument"

/-- Substring test on character lists (Go `strings.Contains`). -/
def goStringsContains : List Char → List Char → Bool
  | _, [] => true
  | [], _ :: _ => false
  | c :: cs, sub => sub.isPrefixOf (c :: cs) || goStringsContains cs sub

/-- The repository helper `isAWSErr(err, code, message)`: the error carries
the given code and its message contains the given substring (every call
here passes the empty message, which always matches). -/
def isAWSErr (e : AwsError) (code message : String) : Bool :=
  e.code == code && goStringsContains e.message.toList message.toList

/-- Outcomes of the external operations `resourceAwsSsmDocumentDelete` can
perform, in program order: `deleteDocumentPermissions`, `DeleteDocument`,
and the `DocumentDeleted` waiter. -/
structure SsmDeleteApi where
  deletePermissions : Except AwsError Unit
  deleteDocument : Except AwsError Unit
  documentDeleted : Except AwsError Unit

/-- Handler `resourceAwsSsmDocumentDelete`: permissions removal and `DeleteDocument`
errors propagate; a `DocumentDeleted` waiter failure with the
InvalidDocument code (document already gone) is success, any other waiter
failure is returned wrapped. -/
def resourceAwsSsmDocumentDelete (api : SsmDeleteApi) : Except AwsError Unit :=
  match api.deletePermissions with
  | .error e => .error e
  | .ok _ =>
    match api.deleteDocument with
    | .error e => .error e
    | .ok _ =>
      match api.documentDeleted with
      | .error e =>
        if isAWSErr e ssmErrCodeInvalidDocument "" then .ok ()
        else .error (wrapErrW "error waiting for SSM Document to be Deleted" e)
      | .ok _ => .ok ()

/-- Outcomes of the external operations `resourceAwsLbDelete` can perform,
in program order: `DeleteLoadBalancer`, then the two best-effort ENI
cleanup steps `cleanupLBNetworkInterfaces` and
`waitForNLBNetworkInterfacesToDetach`. -/
structure LbDeleteApi where
  deleteLoadBalancer : Except AwsError Unit
  cleanupLBNetworkInterfaces : Except AwsError Unit
  waitForNLBNetworkInterfacesToDetach : Except AwsError Unit

/-- Handler `resourceAwsLbDelete`: a `DeleteLoadBalancer` failure is returned
wrapped; after it succeeds both ENI cleanup steps run, their failures are
only logged, and the handler returns success regardless of their
outcomes. -/
def resourceAwsLbDelete (api : LbDeleteApi) : Except AwsError Unit :=
  match api.deleteLoadBalancer with
  | .error e => .error (wrapErrW "error deleting LB" e)
  | .ok _ =>
    match api.cleanupLBNetworkInterfaces, api.waitForNLBNetworkInterfacesToDetach with
    | _, _ => .ok ()

/-- A sample API error used by concrete instances below. -/
def sampleAwsError : AwsError := ⟨"InternalFailure", "service unavailable"⟩

/-- A sample unmanaged Batch compute-environment configuration. -/
def sampleBatchConfig : BatchCreateConfig := ⟨"ce-one", "svc-role", "UNMANAGED", []⟩

/-- Batch create outcomes where `CreateComputeEnvironment` fails. -/
def sampleBatchApiCreateErr : BatchCreateApi := ⟨.error sampleAwsError, .ok (), .ok ()⟩

/-- SSM create outcomes where `CreateDocument` fails. -/
def sampleSsmApiCreateErr : SsmCreateApi := ⟨.error sampleAwsError, .ok (), .ok (), .ok ()⟩

/-- LB create outcomes where `CreateLoadBalancer` fails. -/
def sampleLbApiCreateErr : LbCreateApi := ⟨.error sampleAwsError, .ok (), .ok ()⟩

/-- LB create outcomes where the create response holds two load balancers. -/
def sampleLbApiTwoResults : LbCreateApi :=
  ⟨.ok ["arn:one", "arn:two"], .ok (), .ok ()⟩

/-- A VALID compute environment named env-a. -/
def ceValidA : BatchComputeEnvironment := ⟨"env-a", "VALID", "role-a", "ENABLED"⟩

/-- A VALID compute environment named env-b. -/
def ceValidB : BatchComputeEnvironment := ⟨"env-b", "VALID", "role-b", "ENABLED"⟩

/-- SSM delete outcomes where the delete waiter reports InvalidDocument. -/
def sampleSsmDeleteApiGone : SsmDeleteApi :=
  ⟨.ok (), .ok (), .error ⟨"InvalidDocument", "document gone"⟩⟩

/-- LB delete outcomes where the primary delete succeeds and both ENI
cleanup steps fail. -/
def sampleLbDeleteApiCleanupFails : LbDeleteApi :=
  ⟨.ok (), .error sampleAwsError, .error sampleAwsError⟩

/-- The permissions map passes validation exactly when `type` is the string
"Share" and `account_ids` is present as a string. -/
theorem validateSSMDocumentPermissions_eq_nil_iff (v : PermMap) :
    validateSSMDocumentPermissions v = [] ↔
      v.lookup "type" = some (GoVal.str "Share") ∧
        (goStringAssert (v.lookup "account_ids")).isSome := by
  unfold validateSSMDocumentPermissions
  rcases htype : v.lookup "type" with _ | gv
  · simp [goStringAssert, htype]
  · rcases gv with s | _
    · rcases hacc : goStringAssert (v.lookup "account_ids") with _ | a <;>
        by_cases hs : s = "Share" <;>
        simp [goStringAssert, htype, hacc, ssmDocumentPermissionTypeShare, hs]
    · simp [goStringAssert, htype]

/-- Each violated condition contributes exactly one error. -/
theorem validateSSMDocumentPermissions_length (v : PermMap) :
    (validateSSMDocumentPermissions v).length =
      (if v.lookup "type" = some (GoVal.str "Share") then 0 else 1) +
        (if (goStringAssert (v.lookup "account_ids")).isSome then 0 else 1) := by
  unfold validateSSMDocumentPermissions
  rcases htype : v.lookup "type" with _ | gv
  · rcases hacc : goStringAssert (v.lookup "account_ids") with _ | a <;>
      simp [goStringAssert, htype, hacc]
  · rcases gv with s | _
    · rcases hacc : goStringAssert (v.lookup "account_ids") with _ | a <;>
        by_cases hs : s = "Share" <;>
        simp [goStringAssert, htype, hacc, ssmDocumentPermissionTypeShare, hs]
    · rcases hacc : goStringAssert (v.lookup "account_ids") with _ | a <;>
        simp [goStringAssert, htype, hacc]

/-- Flushing invariant of the batching loop: the concatenation of the final
batches is the already-flushed prefix, the current batch, then the rest. -/
theorem accountIdsBatchLoop_join (limit : Nat) :
    ∀ (l : List String) (batches : List (List String)) (batch : List String),
      (accountIdsBatchLoop limit batches batch l).flatten =
        batches.flatten ++ (batch ++ l)
  | [], batches, batch => by
    simp [accountIdsBatchLoop]
  | accountId :: rest, batches, batch => by
    rw [accountIdsBatchLoop]
    split
    · rw [accountIdsBatchLoop_join limit rest]
      simp
    · rw [accountIdsBatchLoop_join limit rest]
      simp

/-- Size invariant of the batching loop: if every flushed batch and the
current batch respect the (positive) limit, so does every final batch. -/
theorem accountIdsBatchLoop_length_le (limit : Nat) (hpos : 0 < limit) :
    ∀ (l : List String) (batches : List (List String)) (batch : List String),
      (∀ b ∈ batches, b.length ≤ limit) → batch.length ≤ limit →
      ∀ b ∈ accountIdsBatchLoop limit batches batch l, b.length ≤ limit
  | [], batches, batch, hbs, hb => by
    intro b hmem
    rw [accountIdsBatchLoop] at hmem
    rcases List.mem_append.mp hmem with h | h
    · exact hbs b h
    · simp only [List.mem_singleton] at h
      exact h ▸ hb
  | accountId :: rest, batches, batch, hbs, hb => by
    intro b hmem
    rw [accountIdsBatchLoop] at hmem
    split at hmem
    · refine accountIdsBatchLoop_length_le limit hpos rest _ _ ?_ ?_ b hmem
      · intro b' hb'
        rcases List.mem_append.mp hb' with h | h
        · exact hbs b' h
        · simp only [List.mem_singleton] at h
          exact h ▸ hb
      · simpa using hpos
    · refine accountIdsBatchLoop_length_le limit hpos rest _ _ hbs ?_ b hmem
      rename_i hne
      have hlt : batch.length < limit := lt_of_le_of_ne hb hne
      simpa using hlt

theorem goSplitComma_ne_nil (s : List Char) : goSplitComma s ≠ [] := by
  cases s with
  | nil => simp [goSplitComma]
  | cons c cs =>
    rw [goSplitComma]
    rcases h : goSplitComma cs with _ | ⟨r, rs⟩
    · simp
    · by_cases hc : c = ',' <;> simp [hc]

/-- Splitting a comma-free string gives back that single string. -/
theorem goSplitComma_no_comma (s : List Char) (h : ',' ∉ s) :
    goSplitComma s = [s] := by
  induction s with
  | nil => simp [goSplitComma]
  | cons c cs ih =>
    have hc : c ≠ ',' := fun hc => h (hc ▸ List.mem_cons_self c cs)
    have hcs : ',' ∉ cs := fun hm => h (List.mem_cons_of_mem c hm)
    rw [goSplitComma, ih hcs]
    simp [hc]

/-- Splitting peels off a leading comma-free field. -/
theorem goSplitComma_append_comma (s t : List Char) (h : ',' ∉ s) :
    goSplitComma (s ++ ',' :: t) = s :: goSplitComma t := by
  induction s with
  | nil =>
    rw [List.nil_append, goSplitComma]
    rcases ht : goSplitComma t with _ | ⟨r, rs⟩
    · exact absurd ht (goSplitComma_ne_nil t)
    · simp
  | cons c cs ih =>
    have hc : c ≠ ',' := fun hc => h (hc ▸ List.mem_cons_self c cs)
    have hcs : ',' ∉ cs := fun hm => h (List.mem_cons_of_mem c hm)
    rw [List.cons_append, goSplitComma, ih hcs]
    simp [hc]

/-- Splitting is a left inverse of joining, for a non-empty list of
comma-free fields. -/
theorem goSplitComma_goJoinComma (ids : List (List Char)) (hne : ids ≠ [])
    (hnc : ∀ s ∈ ids, ',' ∉ s) : goSplitComma (goJoinComma ids) = ids := by
  induction ids with
  | nil => exact absurd rfl hne
  | cons s rest ih =>
    cases rest with
    | nil =>
      rw [goJoinComma]
      exact goSplitComma_no_comma s (hnc s (List.mem_cons_self s []))
    | cons s2 rest2 =>
      rw [goJoinComma, goSplitComma_append_comma s _ (hnc s (List.mem_cons_self s _))]
      have htail : goSplitComma (goJoinComma (s2 :: rest2)) = s2 :: rest2 :=
        ih (by simp) (fun x hx => hnc x (List.mem_cons_of_mem s hx))
      rw [htail]

theorem accountIdsToRemove_self (n : List String) : accountIdsToRemove n n = [] := by
  simp [accountIdsToRemove, sliceContainsString]

theorem accountIdsToAdd_self (n : List String) : accountIdsToAdd n n = [] := by
  simp [accountIdsToAdd, sliceContainsString]

theorem applyPermissionDiff_nil (n : List String) : applyPermissionDiff n [] [] = n := by
  simp [applyPermissionDiff, sliceContainsString]

/-- Applying the diff computed from old ids `o` to new ids `n` to the remote
set `o` yields exactly `n` (as a set: the resulting duplicate-free list is a
permutation of `n`). -/
theorem applyPermissionDiff_perm (o n : List String) (ho : o.Nodup) (hn : n.Nodup) :
    (applyPermissionDiff o (accountIdsToAdd o n) (accountIdsToRemove o n)).Perm n := by
  unfold applyPermissionDiff accountIdsToAdd accountIdsToRemove sliceContainsString
  have hkeep :
      (o.filter fun s => !((o.filter fun oldId => !(n.contains oldId)).contains s)) =
        o.filter fun s => n.contains s := by
    refine List.filter_congr ?_
    intro a ha
    by_cases hmem : a ∈ n
    · simp [List.mem_filter, hmem]
    · simp [List.mem_filter, hmem, ha]
  rw [hkeep]
  have hperm1 : (o.filter fun s => n.contains s).Perm (n.filter fun s => o.contains s) := by
    refine List.perm_of_nodup_nodup_toFinset_eq (ho.filter _) (hn.filter _) ?_
    ext x
    simp [List.mem_filter, and_comm]
  have hperm2 :
      ((n.filter fun s => o.contains s) ++ (n.filter fun newId => !(o.contains newId))).Perm n := by
    have := List.filter_append_perm (fun s => o.contains s) n
    simpa using this
  exact (hperm1.append_right _).trans hperm2

theorem goStringsContains_nil (l : List Char) : goStringsContains l [] = true := by
  cases l <;> rfl

/-- The SSM document id is exactly the name returned by a successful
`CreateDocument`, in every branch after it. -/
theorem ssmDocumentCreateCallApi_resourceId (b : Bool) (api : SsmCreateApi) :
    (ssmDocumentCreateCallApi b api).resourceId =
      match api.createDocument with
      | .error _ => none
      | .ok n => some n := by
  unfold ssmDocumentCreateCallApi
  rcases hc : api.createDocument with e | n
  · rfl
  · cases b <;>
      rcases hs : api.setDocumentPermissions with e2 | u <;>
      rcases ha : api.documentActive with e3 | v <;>
      simp [hs, ha]

/-- C1: in every resource Create handler (Batch compute environment, SSM
document, load balancer), the resource id is set only after the cloud API
call creating the resource returns without error: when the create call
fails the handler returns that error (for SSM and LB wrapped with the
handler's context message) with the id never set, and whenever the id is
set the create call succeeded, the id coming from the confirmed name
(Batch), the response document name (SSM) or the response ARN (LB). -/
theorem claim_C1_id_set_only_after_create_success :
    (∀ (cfg : BatchCreateConfig) (api : BatchCreateApi) (e : AwsError),
      ¬(cfg.ceType = batchCETypeManaged ∧ cfg.computeResources.length = 0) →
      api.createComputeEnvironment = .error e →
      (resourceAwsBatchComputeEnvironmentCreate cfg api).result = .error e ∧
        (resourceAwsBatchComputeEnvironmentCreate cfg api).resourceId = none) ∧
    (∀ (cfg : BatchCreateConfig) (api : BatchCreateApi),
      (resourceAwsBatchComputeEnvironmentCreate cfg api).resourceId ≠ none →
      api.createComputeEnvironment = .ok ()) ∧
    (∀ (permissions : Option PermMap) (api : SsmCreateApi) (e : AwsError),
      (∀ p, permissions = some p → validateSSMDocumentPermissions p = []) →
      api.createDocument = .error e →
      (resourceAwsSsmDocumentCreate permissions api).result =
          .error (wrapErr "Error creating SSM document" e) ∧
        (resourceAwsSsmDocumentCreate permissions api).resourceId = none) ∧
    (∀ (permissions : Option PermMap) (api : SsmCreateApi),
      (resourceAwsSsmDocumentCreate permissions api).resourceId ≠ none →
      ∃ n, api.createDocument = .ok n ∧
        (resourceAwsSsmDocumentCreate permissions api).resourceId = some n) ∧
    (∀ (name lbType : String) (api : LbCreateApi) (e : AwsError),
      api.createLoadBalancer = .error e →
      (resourceAwsLbCreate name lbType api).result =
          .error (wrapErrW ("error creating " ++ lbType ++ " Load Balancer") e) ∧
        (resourceAwsLbCreate name lbType api).resourceId = none) ∧
    (∀ (name lbType : String) (api : LbCreateApi),
      (resourceAwsLbCreate name lbType api).resourceId ≠ none →
      ∃ lbs, api.createLoadBalancer = .ok lbs ∧ lbs.length = 1 ∧
        (resourceAwsLbCreate name lbType api).resourceId = some (lbs.headD "")) := by
  refine ⟨?_, ?_, ?_, ?_, ?_, ?_⟩
  · intro cfg api e hpre hc
    unfold resourceAwsBatchComputeEnvironmentCreate
    rw [if_neg hpre, hc]
    exact ⟨rfl, rfl⟩
  · intro cfg api hid
    by_cases hpre : cfg.ceType = batchCETypeManaged ∧ cfg.computeResources.length = 0
    · exfalso
      apply hid
      unfold resourceAwsBatchComputeEnvironmentCreate
      rw [if_pos hpre]
    · rcases hc : api.createComputeEnvironment with e | u
      · exfalso
        apply hid
        unfold resourceAwsBatchComputeEnvironmentCreate
        rw [if_neg hpre, hc]
      · cases u
        rfl
  · intro permissions api e hval hc
    rcases permissions with _ | p
    · unfold resourceAwsSsmDocumentCreate ssmDocumentCreateCallApi
      rw [hc]
      exact ⟨rfl, rfl⟩
    · have h0 : validateSSMDocumentPermissions p = [] := hval p rfl
      simp only [resourceAwsSsmDocumentCreate, h0, List.length_nil, lt_irrefl, if_false]
      unfold ssmDocumentCreateCallApi
      rw [hc]
      exact ⟨rfl, rfl⟩
  · intro permissions api hid
    have hbody : ∀ b : Bool, (ssmDocumentCreateCallApi b api).resourceId ≠ none →
        ∃ n, api.createDocument = .ok n ∧
          (ssmDocumentCreateCallApi b api).resourceId = some n := by
      intro b hb
      rw [ssmDocumentCreateCallApi_resourceId] at hb ⊢
      rcases hc : api.createDocument with e | n
      · rw [hc] at hb
        simp at hb
      · exact ⟨n, rfl, rfl⟩
    rcases hp : permissions with _ | p
    · rw [hp] at hid
      simp only [resourceAwsSsmDocumentCreate] at hid ⊢
      exact hbody false hid
    · rw [hp] at hid
      simp only [resourceAwsSsmDocumentCreate] at hid ⊢
      by_cases hv : 0 < (validateSSMDocumentPermissions p).length
      · rw [if_pos hv] at hid
        simp at hid
      · rw [if_neg hv] at hid ⊢
        exact hbody true hid
  · intro name lbType api e hc
    unfold resourceAwsLbCreate
    rw [hc]
    exact ⟨rfl, rfl⟩
  · intro name lbType api hid
    rcases hc : api.createLoadBalancer with e | lbs
    · exfalso
      apply hid
      unfold resourceAwsLbCreate
      rw [hc]
    · refine ⟨lbs, rfl, ?_⟩
      by_cases hlen : lbs.length ≠ 1
      · exfalso
        apply hid
        simp only [resourceAwsLbCreate, hc, if_pos hlen]
      · constructor
        · exact not_not.mp hlen
        · simp only [resourceAwsLbCreate, hc, if_neg hlen]
          rcases ha : api.loadBalancerActive with e2 | u <;> simp [ha]

/-- C1 witness: concrete create failures leave the id unset and propagate
the error in all three handlers. -/
theorem claim_C1_id_set_only_after_create_success_witness :
    ((resourceAwsBatchComputeEnvironmentCreate sampleBatchConfig sampleBatchApiCreateErr).result =
        .error sampleAwsError ∧
      (resourceAwsBatchComputeEnvironmentCreate sampleBatchConfig sampleBatchApiCreateErr).resourceId =
        none) ∧
    ((resourceAwsSsmDocumentCreate none sampleSsmApiCreateErr).result =
        .error (wrapErr "Error creating SSM document" sampleAwsError) ∧
      (resourceAwsSsmDocumentCreate none sampleSsmApiCreateErr).resourceId = none) ∧
    ((resourceAwsLbCreate "lb-one" "application" sampleLbApiCreateErr).result =
        .error (wrapErrW "error creating application Load Balancer" sampleAwsError) ∧
      (resourceAwsLbCreate "lb-one" "application" sampleLbApiCreateErr).resourceId = none) :=
  ⟨claim_C1_id_set_only_after_create_success.1 sampleBatchConfig sampleBatchApiCreateErr
      sampleAwsError (by decide) rfl,
    claim_C1_id_set_only_after_create_success.2.2.1 none sampleSsmApiCreateErr sampleAwsError
      (fun p hp => by cases hp) rfl,
    claim_C1_id_set_only_after_create_success.2.2.2.2.1 "lb-one" "application"
      sampleLbApiCreateErr sampleAwsError rfl⟩

/-- C2 counterexample: a `DescribeComputeEnvironments` response with two
compute environments for the single-identity query does not make the Read
handler or the status refresh function fail; both silently select the first
result (`result.ComputeEnvironments[0]`) and continue, contradicting the
claim that every such operation fails with an invariant-violation error. -/
theorem claim_C2_counterexample :
    resourceAwsBatchComputeEnvironmentRead (.ok [ceValidA, ceValidB]) = .ok ceValidA ∧
    resourceAwsBatchComputeEnvironmentStatusRefreshFunc (.ok [ceValidA, ceValidB]) =
      ⟨some [ceValidA, ceValidB], "VALID", none⟩ ∧
    resourceAwsBatchComputeEnvironmentDeleteRefreshFunc (.ok [ceValidA, ceValidB]) =
      ⟨some [ceValidA, ceValidB], "VALID", none⟩ :=
  ⟨rfl, rfl, rfl⟩

/-- C2 amended: only the load-balancer Create handler enforces the
exactly-one-result invariant (failing, with no id set, whenever the create
response does not hold exactly one load balancer); the Batch Read handler
and both poll refresh functions check only for the empty response (the
status refresh failing with the invariant-violation error on zero results)
and, given two or more results, silently use the first one and continue. -/
theorem claim_C2_amended_multiple_results :
    (∀ (name lbType : String) (api : LbCreateApi) (lbs : List String),
      api.createLoadBalancer = .ok lbs → lbs.length ≠ 1 →
      (resourceAwsLbCreate name lbType api).result =
          .error ⟨"", "no load balancers returned following creation of " ++ name⟩ ∧
        (resourceAwsLbCreate name lbType api).resourceId = none) ∧
    (∀ (ce : BatchComputeEnvironment) (rest : List BatchComputeEnvironment),
      resourceAwsBatchComputeEnvironmentRead (.ok (ce :: rest)) = .ok ce) ∧
    (∀ (ce : BatchComputeEnvironment) (rest : List BatchComputeEnvironment),
      resourceAwsBatchComputeEnvironmentStatusRefreshFunc (.ok (ce :: rest)) =
        ⟨some (ce :: rest), ce.status, none⟩) ∧
    (∀ (ce : BatchComputeEnvironment) (rest : List BatchComputeEnvironment),
      resourceAwsBatchComputeEnvironmentDeleteRefreshFunc (.ok (ce :: rest)) =
        ⟨some (ce :: rest), ce.status, none⟩) ∧
    resourceAwsBatchComputeEnvironmentStatusRefreshFunc (.ok []) =
      ⟨none, "failed",
        some ⟨"", "One compute environment is expected, but AWS return no compute environment"⟩⟩ := by
  refine ⟨?_, fun ce rest => rfl, fun ce rest => rfl, fun ce rest => rfl, rfl⟩
  intro name lbType api lbs hc hlen
  constructor <;> simp [resourceAwsLbCreate, hc, if_pos hlen]

/-- C2 amended witness: a create response with two load balancers makes the
LB Create handler fail without setting an id. -/
theorem claim_C2_amended_multiple_results_witness :
    (resourceAwsLbCreate "lb-one" "application" sampleLbApiTwoResults).result =
        .error ⟨"", "no load balancers returned following creation of lb-one"⟩ ∧
      (resourceAwsLbCreate "lb-one" "application" sampleLbApiTwoResults).resourceId = none :=
  claim_C2_amended_multiple_results.1 "lb-one" "application" sampleLbApiTwoResults
    ["arn:one", "arn:two"] rfl (by decide)

/-- C3: a "resource not found" answer during a delete poll is the deleted
terminal state, not an error: the Batch delete refresh function maps an
empty describe result to the DELETED status with no error, and the SSM
document Delete handler returns success when the delete waiter fails with
the InvalidDocument code after the delete call succeeded. -/
theorem claim_C3_not_found_is_deleted :
    (resourceAwsBatchComputeEnvironmentDeleteRefreshFunc (.ok []) =
      ⟨some [], batchCEStatusDeleted, none⟩) ∧
    (∀ (api : SsmDeleteApi) (e : AwsError),
      api.deletePermissions = .ok () → api.deleteDocument = .ok () →
      api.documentDeleted = .error e → e.code = ssmErrCodeInvalidDocument →
      resourceAwsSsmDocumentDelete api = .ok ()) := by
  refine ⟨rfl, ?_⟩
  intro api e h1 h2 h3 hcode
  unfold resourceAwsSsmDocumentDelete
  rw [h1, h2, h3]
  have hmatch : isAWSErr e ssmErrCodeInvalidDocument "" = true := by
    simp [isAWSErr, hcode, goStringsContains_nil]
  simp [hmatch]

/-- C3 witness: with the delete call succeeded and the waiter failing with
InvalidDocument, the SSM Delete handler returns success. -/
theorem claim_C3_not_found_is_deleted_witness :
    resourceAwsSsmDocumentDelete sampleSsmDeleteApiGone = .ok () :=
  claim_C3_not_found_is_deleted.2 sampleSsmDeleteApiGone ⟨"InvalidDocument", "document gone"⟩
    rfl rfl rfl rfl

/-- C4: the account-id reconciliation diff of `setDocumentPermissions`
(ids only in the old list are removed, ids only in the new list are added)
applied to the old set yields exactly the new set (for duplicate-free lists,
the result is a permutation of the new list), and the diff computed from the
new set to itself is empty, so applying the diff again is a no-op. -/
theorem claim_C4_permission_diff_correct (o n : List String)
    (ho : o.Nodup) (hn : n.Nodup) :
    (applyPermissionDiff o (accountIdsToAdd o n) (accountIdsToRemove o n)).Perm n ∧
    accountIdsToAdd n n = [] ∧ accountIdsToRemove n n = [] ∧
    applyPermissionDiff n (accountIdsToAdd n n) (accountIdsToRemove n n) = n := by
  refine ⟨applyPermissionDiff_perm o n ho hn, accountIdsToAdd_self n,
    accountIdsToRemove_self n, ?_⟩
  rw [accountIdsToAdd_self, accountIdsToRemove_self]
  exact applyPermissionDiff_nil n

/-- C4 witness: concrete old and new account-id sets. -/
theorem claim_C4_permission_diff_correct_witness :
    (applyPermissionDiff ["111", "222"] (accountIdsToAdd ["111", "222"] ["222", "333"])
        (accountIdsToRemove ["111", "222"] ["222", "333"])).Perm ["222", "333"] ∧
    accountIdsToAdd ["222", "333"] ["222", "333"] = [] ∧
    accountIdsToRemove ["222", "333"] ["222", "333"] = [] ∧
    applyPermissionDiff ["222", "333"] (accountIdsToAdd ["222", "333"] ["222", "333"])
        (accountIdsToRemove ["222", "333"] ["222", "333"]) = ["222", "333"] :=
  claim_C4_permission_diff_correct ["111", "222"] ["222", "333"] (by decide) (by decide)

/-- C5: once `DeleteLoadBalancer` has succeeded, the LB Delete handler
returns success whatever the outcomes of the two best-effort ENI cleanup
steps; cleanup failures are only logged, never propagated. -/
theorem claim_C5_cleanup_errors_swallowed (api : LbDeleteApi)
    (h : api.deleteLoadBalancer = .ok ()) :
    resourceAwsLbDelete api = .ok () := by
  unfold resourceAwsLbDelete
  rw [h]

/-- C5 witness: both cleanup steps fail, yet Delete succeeds. -/
theorem claim_C5_cleanup_errors_swallowed_witness :
    resourceAwsLbDelete sampleLbDeleteApiCleanupFails = .ok () :=
  claim_C5_cleanup_errors_swallowed sampleLbDeleteApiCleanupFails rfl

/-- C6: a describe error inside either Batch poll refresh function is
returned as the refresh error together with the status "failed" (the
`resource.StateChangeConf` poller then stops with that error, retrying
nothing). -/
theorem claim_C6_refresh_error_fails (e : AwsError) :
    resourceAwsBatchComputeEnvironmentStatusRefreshFunc (.error e) =
      ⟨none, "failed", some e⟩ ∧
    resourceAwsBatchComputeEnvironmentDeleteRefreshFunc (.error e) =
      ⟨none, "failed", some e⟩ :=
  ⟨rfl, rfl⟩

/-- C7: malformed configuration fails the Create handler before any cloud
API call (and without any retry loop): a managed Batch compute environment
with an empty `compute_resources` list, and an SSM document whose
`permissions` map lacks a `type` entry equal to "Share" or lacks an
`account_ids` string, both return an error with an empty list of issued
calls and no id set. -/
theorem claim_C7_malformed_config_fails_before_api :
    (∀ (cfg : BatchCreateConfig) (api : BatchCreateApi),
      cfg.ceType = batchCETypeManaged → cfg.computeResources = [] →
      (resourceAwsBatchComputeEnvironmentCreate cfg api).result =
          .error ⟨"", "One compute environment is expected, but no compute environments are set"⟩ ∧
        (resourceAwsBatchComputeEnvironmentCreate cfg api).calls = [] ∧
        (resourceAwsBatchComputeEnvironmentCreate cfg api).resourceId = none) ∧
    (∀ (p : PermMap) (api : SsmCreateApi),
      (p.lookup "type" ≠ some (GoVal.str "Share") ∨
        goStringAssert (p.lookup "account_ids") = none) →
      (resourceAwsSsmDocumentCreate (some p) api).result =
          .error ⟨"", "Error validating Permissions"⟩ ∧
        (resourceAwsSsmDocumentCreate (some p) api).calls = [] ∧
        (resourceAwsSsmDocumentCreate (some p) api).resourceId = none) := by
  constructor
  · intro cfg api h1 h2
    have hpre : cfg.ceType = batchCETypeManaged ∧ cfg.computeResources.length = 0 :=
      ⟨h1, by rw [h2]; rfl⟩
    unfold resourceAwsBatchComputeEnvironmentCreate
    rw [if_pos hpre]
    exact ⟨rfl, rfl, rfl⟩
  · intro p api hbad
    have hne : validateSSMDocumentPermissions p ≠ [] := by
      intro h0
      rcases (validateSSMDocumentPermissions_eq_nil_iff p).mp h0 with ⟨ht, ha⟩
      rcases hbad with hb | hb
      · exact hb ht
      · rw [hb] at ha
        simp at ha
    have hlen : 0 < (validateSSMDocumentPermissions p).length := List.length_pos.mpr hne
    refine ⟨?_, ?_, ?_⟩ <;> simp [resourceAwsSsmDocumentCreate, if_pos hlen]

/-- C7 witness: an empty managed compute-resources block and a permissions
map whose type is not "Share" both fail with no API call issued. -/
theorem claim_C7_malformed_config_fails_before_api_witness :
    ((resourceAwsBatchComputeEnvironmentCreate ⟨"ce-one", "svc-role", "MANAGED", []⟩
        sampleBatchApiCreateErr).calls = []) ∧
    ((resourceAwsSsmDocumentCreate (some [("type", GoVal.str "Private")])
        sampleSsmApiCreateErr).calls = []) :=
  ⟨(claim_C7_malformed_config_fails_before_api.1 ⟨"ce-one", "svc-role", "MANAGED", []⟩
      sampleBatchApiCreateErr rfl rfl).2.1,
    (claim_C7_malformed_config_fails_before_api.2 [("type", GoVal.str "Private")]
      sampleSsmApiCreateErr (Or.inl (by decide))).2.1⟩

/-- C8: `modifyDocumentPermissions` partitions each input account-id list
into consecutive batches of size at most
`SSM_DOCUMENT_PERMISSIONS_BATCH_LIMIT` (20) whose concatenation is exactly
the input list (so every id occurs in exactly one batch, in order), and
issues one `ModifyDocumentPermission` call per batch, adds before
removes. -/
theorem claim_C8_permission_batching (accountIds : List String) :
    (accountIdsBatches accountIds).flatten = accountIds ∧
    (∀ b ∈ accountIdsBatches accountIds,
      b.length ≤ SSM_DOCUMENT_PERMISSIONS_BATCH_LIMIT) ∧
    (∀ (name : String) (removes : List String),
      (modifyDocumentPermissions name (some accountIds) (some removes)).length =
          (accountIdsBatches accountIds).length + (accountIdsBatches removes).length ∧
        (modifyDocumentPermissions name (some accountIds) none).map
            ModifyDocumentPermissionInput.accountIdsToAdd = accountIdsBatches accountIds ∧
        (modifyDocumentPermissions name none (some removes)).map
            ModifyDocumentPermissionInput.accountIdsToRemove = accountIdsBatches removes) := by
  refine ⟨?_, ?_, ?_⟩
  · unfold accountIdsBatches
    rw [accountIdsBatchLoop_join]
    simp
  · intro b hb
    refine accountIdsBatchLoop_length_le SSM_DOCUMENT_PERMISSIONS_BATCH_LIMIT (by decide)
      accountIds [] [] ?_ ?_ b hb
    · intro b' hb'
      simp at hb'
    · simp
  · intro name removes
    have hadd : (ModifyDocumentPermissionInput.accountIdsToAdd ∘ fun b =>
        (⟨name, "Share", b, []⟩ : ModifyDocumentPermissionInput)) = id := funext fun b => rfl
    have hrem : (ModifyDocumentPermissionInput.accountIdsToRemove ∘ fun b =>
        (⟨name, "Share", [], b⟩ : ModifyDocumentPermissionInput)) = id := funext fun b => rfl
    refine ⟨?_, ?_, ?_⟩ <;> simp [modifyDocumentPermissions, hadd, hrem]

/-- C8 witness: a concrete 25-id list is split into a batch of 20 and a
batch of 5. -/
theorem claim_C8_permission_batching_witness :
    (accountIdsBatches ((List.range 25).map toString)).flatten =
        (List.range 25).map toString ∧
      ((accountIdsBatches ((List.range 25).map toString)).headD []).length ≤
        SSM_DOCUMENT_PERMISSIONS_BATCH_LIMIT :=
  ⟨(claim_C8_permission_batching ((List.range 25).map toString)).1,
    (claim_C8_permission_batching ((List.range 25).map toString)).2.1
      ((accountIdsBatches ((List.range 25).map toString)).headD []) (by decide)⟩

/-- C9: `validateSSMDocumentPermissions` returns no errors exactly when the
`type` entry is the string "Share" and the `account_ids` entry is a string,
and each violated condition (missing or non-"Share" type; missing
account_ids string) contributes exactly one error to the list. -/
theorem claim_C9_validate_permissions (v : PermMap) :
    (validateSSMDocumentPermissions v = [] ↔
      v.lookup "type" = some (GoVal.str "Share") ∧
        (goStringAssert (v.lookup "account_ids")).isSome) ∧
    (validateSSMDocumentPermissions v).length =
      (if v.lookup "type" = some (GoVal.str "Share") then 0 else 1) +
        (if (goStringAssert (v.lookup "account_ids")).isSome then 0 else 1) :=
  ⟨validateSSMDocumentPermissions_eq_nil_iff v, validateSSMDocumentPermissions_length v⟩

/-- C10: for a non-empty list of non-empty, comma-free account ids, the
comma-joined encoding of `getDocumentPermissions` and the comma-splitting
decoding of `setDocumentPermissions` and `deleteDocumentPermissions` are
mutually inverse: splitting the joined string yields the original list in
order. -/
theorem claim_C10_join_split_roundtrip (ids : List (List Char)) (hne : ids ≠ [])
    (hok : ∀ s ∈ ids, s ≠ [] ∧ ',' ∉ s) :
    parseAccountIdsString (getDocumentPermissionsIds ids) = ids := by
  have hjoin : getDocumentPermissionsIds ids = goJoinComma ids := by
    rcases ids with _ | ⟨s, _ | ⟨s2, rest⟩⟩ <;> rfl
  have hnonempty : getDocumentPermissionsIds ids ≠ [] := by
    rw [hjoin]
    rcases ids with _ | ⟨s, _ | ⟨s2, rest⟩⟩
    · exact absurd rfl hne
    · exact (hok s (List.mem_cons_self s [])).1
    · rw [goJoinComma]
      simp
  rw [hjoin] at hnonempty ⊢
  unfold parseAccountIdsString
  rw [if_neg hnonempty]
  exact goSplitComma_goJoinComma ids hne (fun s hs => (hok s hs).2)

/-- C10 witness: two concrete account ids survive the roundtrip. -/
theorem claim_C10_join_split_roundtrip_witness :
    parseAccountIdsString
        (getDocumentPermissionsIds [['1', '2'], ['3', '4', '5']]) =
      [['1', '2'], ['3', '4', '5']] :=
  claim_C10_join_split_roundtrip [['1', '2'], ['3', '4', '5']] (by decide) (by decide)
